import Mathlib

/-!
Verification of the LinSpire linear feasibility solver.

Shallow embedding of the LinSpire repository (an incremental, retractable
linear feasibility solver over the rationals, general simplex with bounds)
and proofs about it.

The embedding follows the C++ sources:
* `src/src/linspire.cpp` (the most recent of the revisions contained in that
  file: `solver::new_var`, `new_eq`, `new_lt`, `set_lb`, `set_ub`, `update`,
  `check`, `pivot_and_update`, `pivot`, `new_row`),
* `src/include/linspire.hpp` (the inline `lb`/`ub`/`val` on linear
  expressions, `get_conflict`),
* `src/src/var.cpp` (the reason-multiset variable store `var::set_lb`,
  `set_ub`, `unset_lb`, `unset_ub`, `get_lb`, `get_ub`).

The exact-arithmetic collaborators (`utils::rational` with infinity
sentinels, `utils::inf_rational`, `utils::lin`) are external to the
repository; they are modelled from the spec (section 6): `inf_rational` is
a pair of a rational and an infinitesimal coefficient ordered
lexicographically, `lin` is a variable-to-nonzero-coefficient map plus a
known term, iterated in ascending variable order (`std::map`).
-/

namespace LinSpire

/-- Extended rational: `utils::rational` including its `+inf`/`-inf`
sentinels. `WithBot (WithTop ℚ)` gives the sentinel-extended total order. -/
abbrev QX : Type := WithBot (WithTop ℚ)

/-- The finite injection `q ↦ q` into the sentinel-extended rationals. -/
def QX.fin (q : ℚ) : QX := ((q : WithTop ℚ) : WithBot (WithTop ℚ))

/-- The `negative_infinite` sentinel. -/
def QX.ninf : QX := ⊥

/-- The `positive_infinite` sentinel. -/
def QX.pinf : QX := ((⊤ : WithTop ℚ) : WithBot (WithTop ℚ))

/-- Sentinel addition. A sum of the two opposite infinities never occurs in
the solver (expression bounds accumulate infinities of one sign only); the
value chosen for it here is immaterial. -/
def QX.add : QX → QX → QX
  | none, _ => none
  | some none, _ => some none
  | some (some _), none => none
  | some (some _), some none => some none
  | some (some a), some (some b) => some (some (a + b))

/-- Sentinel negation. -/
def QX.neg : QX → QX
  | none => some none
  | some none => none
  | some (some a) => some (some (-a))

/-- Sentinel multiplication by a (finite) rational, as in
`lb(v) * c` inside the expression-bound accumulation. -/
def QX.mulQ : QX → ℚ → QX
  | none, c => if 0 < c then none else if c < 0 then some none else some (some 0)
  | some none, c => if 0 < c then some none else if c < 0 then none else some (some 0)
  | some (some a), c => some (some (a * c))

/-- Sentinel division by a (finite, nonzero) rational. -/
def QX.divQ : QX → ℚ → QX
  | none, c => if 0 < c then none else if c < 0 then some none else some (some 0)
  | some none, c => if 0 < c then some none else if c < 0 then none else some (some 0)
  | some (some a), c => some (some (a / c))

/-- `utils::inf_rational`: a rational (with sentinels) plus an infinitesimal
coefficient, `q + δ·k`, ordered lexicographically (spec section 6). -/
structure IRat where
  r : QX
  i : ℚ
  deriving DecidableEq

namespace IRat

/-- The lexicographic injection underlying the order on `IRat`. -/
def toLexPair (a : IRat) : Lex (QX × ℚ) := toLex (a.r, a.i)

theorem toLexPair_injective : Function.Injective toLexPair := by
  intro a b h
  cases a; cases b
  simpa [toLexPair, Prod.ext_iff] using h

instance : LinearOrder IRat := LinearOrder.lift' toLexPair toLexPair_injective

/-- Addition `(a,b) + (c,d) = (a+c, b+d)` (spec section 6). -/
def add (a b : IRat) : IRat := ⟨QX.add a.r b.r, a.i + b.i⟩

/-- Negation. -/
def neg (a : IRat) : IRat := ⟨QX.neg a.r, -a.i⟩

/-- Subtraction. -/
def sub (a b : IRat) : IRat := add a (neg b)

/-- Scaling `(a,b)·r = (a·r, b·r)` (spec section 6). -/
def mulQ (a : IRat) (c : ℚ) : IRat := ⟨QX.mulQ a.r c, a.i * c⟩

/-- Division by a nonzero rational. -/
def divQ (a : IRat) (c : ℚ) : IRat := ⟨QX.divQ a.r c, a.i / c⟩

/-- The finite value `q + δ·k`. -/
def mk' (q k : ℚ) : IRat := ⟨QX.fin q, k⟩

/-- `inf_rational` zero (a default-constructed value). -/
def zero : IRat := mk' 0 0

/-- Negative infinity. -/
def ninf : IRat := ⟨QX.ninf, 0⟩

/-- Positive infinity. -/
def pinf : IRat := ⟨QX.pinf, 0⟩

end IRat

/-- Variable ids (`utils::var`): dense nonnegative integers. -/
abbrev Var : Type := Nat

/-- Sorted association list standing for a `std::map` keyed by variable id;
`std::map` iterates its entries in ascending key order. -/
abbrev KMap (α : Type) : Type := List (Var × α)

/-- `map.find(x)` / `map.at(x)`: value stored at key `x`. -/
def KMap.lookup {α : Type} : KMap α → Var → Option α
  | [], _ => none
  | (y, a) :: rest, x => if x = y then some a else KMap.lookup rest x

/-- `map.erase(x)`: drop the entry with key `x`. -/
def KMap.erase {α : Type} : KMap α → Var → KMap α
  | [], _ => []
  | (y, a) :: rest, x => if x = y then rest else (y, a) :: KMap.erase rest x

/-- `map.emplace(x, a)`: insert `(x, a)` keeping ascending key order; no
effect when the key is already present (C++ `emplace` semantics). -/
def KMap.emplace {α : Type} : KMap α → Var → α → KMap α
  | [], x, a => [(x, a)]
  | (y, b) :: rest, x, a =>
    if x < y then (x, a) :: (y, b) :: rest
    else if x = y then (y, b) :: rest
    else (y, b) :: KMap.emplace rest x a

/-- Overwrite the value stored at an existing key (C++ `map[x] = a` on a
present key / writing through an iterator). -/
def KMap.setVal {α : Type} : KMap α → Var → α → KMap α
  | [], _, _ => []
  | (y, b) :: rest, x, a => if x = y then (y, a) :: rest else (y, b) :: KMap.setVal rest x a

/-- Sorted duplicate-free list standing for a `std::set` of variable ids. -/
abbrev VSet : Type := List Var

/-- `set.insert(x)`. -/
def VSet.insert : VSet → Var → VSet
  | [], x => [x]
  | y :: rest, x =>
    if x < y then x :: y :: rest
    else if x = y then y :: rest
    else y :: VSet.insert rest x

/-- `set.erase(x)`. -/
def VSet.erase : VSet → Var → VSet
  | [], _ => []
  | y :: rest, x => if x = y then rest else y :: VSet.erase rest x

/-- `utils::lin` (external collaborator, modelled from spec section 6): a
map from variables to nonzero coefficients plus a rational known term. -/
structure Lin where
  vars : KMap ℚ
  known : ℚ
  deriving DecidableEq

namespace Lin

/-- The zero expression. -/
def zero : Lin := ⟨[], 0⟩

/-- Coefficient of `x` in the expression (`l.vars.at(x)`, with the
convention that an absent variable has coefficient zero). -/
def coeff (l : Lin) (x : Var) : ℚ := (KMap.lookup l.vars x).getD 0

/-- Merge `c` into the coefficient of `x`, dropping the term when the sum
is zero (the `lin` map holds only nonzero coefficients, spec section 3). -/
def insertAdd : KMap ℚ → Var → ℚ → KMap ℚ
  | [], x, c => if c = 0 then [] else [(x, c)]
  | (y, a) :: rest, x, c =>
    if x < y then (if c = 0 then (y, a) :: rest else (x, c) :: (y, a) :: rest)
    else if x = y then (if a + c = 0 then rest else (y, a + c) :: rest)
    else (y, a) :: insertAdd rest x c

/-- `e += c * l`: add the scaled expression term by term. -/
def addScaled (e : Lin) (c : ℚ) (l : Lin) : Lin :=
  ⟨l.vars.foldl (fun vs p => insertAdd vs p.1 (c * p.2)) e.vars, e.known + c * l.known⟩

/-- `lhs - rhs`. -/
def sub (lhs rhs : Lin) : Lin := addScaled lhs (-1) rhs

/-- `l /= c`: divide every coefficient and the known term by `c`. -/
def divAll (l : Lin) (c : ℚ) : Lin :=
  ⟨l.vars.map (fun p => (p.1, p.2 / c)), l.known / c⟩

/-- An expression consisting of a single constant. -/
def const (k : ℚ) : Lin := ⟨[], k⟩

/-- An expression consisting of a single scaled variable plus a constant. -/
def term (x : Var) (c : ℚ) (k : ℚ) : Lin := ⟨[(x, c)], k⟩

end Lin

/-- `solver::var` of the reasonless solver revision in `linspire.cpp`:
current value, lower and upper bound, all `inf_rational`. The value of a
fresh variable is a default-constructed `inf_rational`, i.e. zero. -/
structure SVar where
  val : IRat
  lb : IRat
  ub : IRat
  deriving DecidableEq

/-- Fallback used for out-of-range indexing; `assert(x < vars.size())`
guards every access in the C++ so this value is never reached on the
states the theorems speak about. -/
def svDefault : SVar := ⟨IRat.zero, IRat.ninf, IRat.pinf⟩

/-- Write `vars[x].val = v`. -/
def setVal (vs : List SVar) (x : Var) (v : IRat) : List SVar :=
  vs.set x { vs.getD x svDefault with val := v }

/-- Write `vars[x].lb = v`. -/
def setLbField (vs : List SVar) (x : Var) (v : IRat) : List SVar :=
  vs.set x { vs.getD x svDefault with lb := v }

/-- Write `vars[x].ub = v`. -/
def setUbField (vs : List SVar) (x : Var) (v : IRat) : List SVar :=
  vs.set x { vs.getD x svDefault with ub := v }

/-- `linspire::solver` state (the most recent revision in `linspire.cpp`):
variable store, expression-to-slack cache (`exprs`, keyed in the C++ by the
canonical string of the expression, here by the expression itself), the
tableau (`std::map` basic variable to row), and the watch index
(`std::vector` of `std::set`). -/
structure Solver where
  vars : List SVar
  exprs : List (Lin × Var)
  tableau : KMap Lin
  twatches : List VSet
  deriving DecidableEq

namespace Solver

/-- The empty solver. -/
def empty : Solver := ⟨[], [], [], []⟩

/-- `solver::val(x)`. -/
def val (s : Solver) (x : Var) : IRat := (s.vars.getD x svDefault).val

/-- `solver::lb(x)`. -/
def lb (s : Solver) (x : Var) : IRat := (s.vars.getD x svDefault).lb

/-- `solver::ub(x)`. -/
def ub (s : Solver) (x : Var) : IRat := (s.vars.getD x svDefault).ub

/-- `solver::is_basic(x)`: whether `x` keys a tableau row. -/
def is_basic (s : Solver) (x : Var) : Bool := (KMap.lookup s.tableau x).isSome

/-- `solver::lb(const lin&)` (inline in `linspire.hpp`): known term plus,
for each term, `lb(v)*c` when the coefficient is positive else `ub(v)*c`. -/
def lbLin (s : Solver) (l : Lin) : IRat :=
  l.vars.foldl
    (fun b p => b.add ((if 0 < p.2 then s.lb p.1 else s.ub p.1).mulQ p.2))
    (IRat.mk' l.known 0)

/-- `solver::ub(const lin&)` (inline in `linspire.hpp`). -/
def ubLin (s : Solver) (l : Lin) : IRat :=
  l.vars.foldl
    (fun b p => b.add ((if 0 < p.2 then s.ub p.1 else s.lb p.1).mulQ p.2))
    (IRat.mk' l.known 0)

/-- `solver::val(const lin&)` (inline in `linspire.hpp`). -/
def valLin (s : Solver) (l : Lin) : IRat :=
  l.vars.foldl (fun b p => b.add ((s.val p.1).mulQ p.2)) (IRat.mk' l.known 0)

/-- `solver::update(x, v)`: for every row `x_j` watching `x`, add
`a_jx * (v - val(x))` to `val(x_j)`; then set `val(x) = v`. -/
def update (s : Solver) (x : Var) (v : IRat) : Solver :=
  let vs :=
    (s.twatches.getD x []).foldl
      (fun vs xj =>
        setVal vs xj
          (((vs.getD xj svDefault).val).add
            ((IRat.sub v (vs.getD x svDefault).val).mulQ
              (((KMap.lookup s.tableau xj).getD Lin.zero).coeff x))))
      s.vars
  { s with vars := setVal vs x v }

/-- `solver::new_row(x, l)`: add `x` to the watches of every variable of
`l` and install the row `x = l`. -/
def new_row (s : Solver) (x : Var) (l : Lin) : Solver :=
  { s with
    twatches :=
      l.vars.foldl (fun w p => w.set p.1 (VSet.insert (w.getD p.1 []) x)) s.twatches,
    tableau := KMap.emplace s.tableau x l }

/-- `solver::set_lb(x, v)` (reasonless revision, `linspire.cpp`): no-op
when `v <= lb(x)`; failure when `v > ub(x)`; otherwise store the bound and,
when the value of the non-basic `x` dropped below it, `update(x, v)`. -/
def set_lb (s : Solver) (x : Var) (v : IRat) : Bool × Solver :=
  if v ≤ s.lb x then (true, s)
  else if s.ub x < v then (false, s)
  else
    let s₁ : Solver := { s with vars := setLbField s.vars x v }
    if s₁.val x < v ∧ ¬ s₁.is_basic x = true then (true, s₁.update x v) else (true, s₁)

/-- `solver::set_ub(x, v)` (reasonless revision, `linspire.cpp`). -/
def set_ub (s : Solver) (x : Var) (v : IRat) : Bool × Solver :=
  if s.ub x ≤ v then (true, s)
  else if v < s.lb x then (false, s)
  else
    let s₁ : Solver := { s with vars := setUbField s.vars x v }
    if v < s₁.val x ∧ ¬ s₁.is_basic x = true then (true, s₁.update x v) else (true, s₁)

/-- `solver::new_var(lb, ub)`: append a fresh variable (value
default-constructed to zero) and an empty watch set. -/
def new_var (s : Solver) (lo hi : IRat) : Var × Solver :=
  (s.vars.length,
   { s with vars := s.vars ++ [⟨IRat.zero, lo, hi⟩], twatches := s.twatches ++ [[]] })

/-- `solver::new_var(lin&&)`: return the cached slack for the expression
when one exists; otherwise create a slack bounded by `lb(l)`/`ub(l)`,
set its value to `val(l)`, cache it and install the row `slack = l`. -/
def new_var_lin (s : Solver) (l : Lin) : Var × Solver :=
  match s.exprs.find? (fun p => p.1 = l) with
  | some p => (p.2, s)
  | none =>
    let q := s.new_var (s.lbLin l) (s.ubLin l)
    let slack := q.1
    let s₁ := q.2
    let s₂ : Solver := { s₁ with vars := setVal s₁.vars slack (s₁.valLin l) }
    let s₃ : Solver := { s₂ with exprs := s₂.exprs ++ [(l, slack)] }
    (slack, s₃.new_row slack l)

/-- The basic-variable substitution loop shared by `new_eq` and `new_lt`:
for each variable of the snapshot of `e`, when it is basic, read its
coefficient, erase it and add `coefficient * row` to `e`. -/
def subst (s : Solver) (e : Lin) : Lin :=
  (e.vars.map Prod.fst).foldl
    (fun e v =>
      match KMap.lookup s.tableau v with
      | some row => Lin.addScaled { e with vars := KMap.erase e.vars v } (e.coeff v) row
      | none => e)
    e

/-- `solver::new_lt(lhs, rhs, strict)` (most recent revision in
`linspire.cpp`): subtract, substitute basic variables, then dispatch on the
number of remaining variables. -/
def new_lt (s : Solver) (lhs rhs : Lin) (strict : Bool) : Bool × Solver :=
  let e := s.subst (Lin.sub lhs rhs)
  match e.vars with
  | [] => (decide (e.known < 0) || (strict && decide (e.known = 0)), s)
  | [(x, c)] =>
    let cr := (IRat.mk' (-e.known) (if strict then -1 else 0)).divQ c
    if 0 < c then s.set_ub x cr else s.set_lb x cr
  | _ =>
    let cr := IRat.mk' (-e.known) (if strict then -1 else 0)
    let e₂ : Lin := { e with known := 0 }
    let q := s.new_var_lin e₂
    Solver.set_ub q.2 q.1 cr

/-- `solver::new_eq(lhs, rhs)` (most recent revision in `linspire.cpp`). -/
def new_eq (s : Solver) (lhs rhs : Lin) : Bool × Solver :=
  let e := s.subst (Lin.sub lhs rhs)
  match e.vars with
  | [] => (decide (e.known = 0), s)
  | [(x, c)] =>
    let cr := (IRat.mk' (-e.known) 0).divQ c
    let p := s.set_lb x cr
    if p.1 then Solver.set_ub p.2 x cr else (false, p.2)
  | _ =>
    let cr := IRat.mk' (-e.known) 0
    let e₂ : Lin := { e with known := 0 }
    let q := s.new_var_lin e₂
    let p := Solver.set_lb q.2 q.1 cr
    if p.1 then Solver.set_ub p.2 q.1 cr else (false, p.2)

/-- `solver::pivot(x_i, x_j)`: unwatch the `x_i` row, rewrite it as a row
for `x_j`, fold the new row into every row watching `x_j` (maintaining the
watch index and dropping cancelled terms), clear the watches of `x_j` and
install the new row. -/
def pivot (s : Solver) (xi xj : Var) : Solver :=
  let row := (KMap.lookup s.tableau xi).getD Lin.zero
  let w₁ := row.vars.foldl (fun w p => w.set p.1 (VSet.erase (w.getD p.1 []) xi)) s.twatches
  let cc := row.coeff xj
  let l₁ : Lin := { row with vars := KMap.erase row.vars xj }
  let l₂ := l₁.divAll (-cc)
  let l₃ : Lin := { l₂ with vars := KMap.emplace l₂.vars xi (1 / cc) }
  let tab₁ := KMap.erase s.tableau xi
  let st :=
    (w₁.getD xj []).foldl
      (fun (st : KMap Lin × List VSet) r =>
        let cl := (KMap.lookup st.1 r).getD Lin.zero
        let cc₂ := cl.coeff xj
        let cl₁ : Lin := { cl with vars := KMap.erase cl.vars xj }
        let res :=
          l₃.vars.foldl
            (fun (q : Lin × List VSet) p =>
              match KMap.lookup q.1.vars p.1 with
              | none =>
                ({ q.1 with vars := KMap.emplace q.1.vars p.1 (p.2 * cc₂) },
                 q.2.set p.1 (VSet.insert (q.2.getD p.1 []) r))
              | some old =>
                if old + p.2 * cc₂ = 0 then
                  ({ q.1 with vars := KMap.erase q.1.vars p.1 },
                   q.2.set p.1 (VSet.erase (q.2.getD p.1 []) r))
                else
                  ({ q.1 with vars := KMap.setVal q.1.vars p.1 (old + p.2 * cc₂) }, q.2))
            (cl₁, st.2)
        (KMap.setVal st.1 r res.1, res.2))
      (tab₁, w₁)
  let w₂ := st.2.set xj []
  Solver.new_row { s with tableau := st.1, twatches := w₂ } xj l₃

/-- `solver::pivot_and_update(x_i, x_j, v)`: θ = (v − val(x_i)) / a_ij;
set `val(x_i) = v`, add θ to `val(x_j)`, add `a_kj·θ` to every other row
watching `x_j`, then pivot. -/
def pivot_and_update (s : Solver) (xi xj : Var) (v : IRat) : Solver :=
  let a := ((KMap.lookup s.tableau xi).getD Lin.zero).coeff xj
  let theta := (IRat.sub v (s.val xi)).divQ a
  let vs₁ := setVal s.vars xi v
  let vs₂ := setVal vs₁ xj ((vs₁.getD xj svDefault).val.add theta)
  let vs₃ :=
    (s.twatches.getD xj []).foldl
      (fun vs xk =>
        if xk = xi then vs
        else
          setVal vs xk
            ((vs.getD xk svDefault).val.add
              (theta.mulQ (((KMap.lookup s.tableau xk).getD Lin.zero).coeff xj))))
      vs₂
  Solver.pivot { s with vars := vs₃ } xi xj

/-- `solver::check()`, with explicit fuel standing for the unbounded
`while (true)` loop: `none` means the loop was still running after `fuel`
iterations; `some (b, s')` means it returned `b` in state `s'`. Each
iteration scans the tableau (ascending variable ids) for the first
out-of-bounds basic variable, then its row (ascending variable ids) for the
first variable eligible to repair it; pivots or reports infeasibility. -/
def checkFuel : Nat → Solver → Option (Bool × Solver)
  | 0, _ => none
  | n + 1, s =>
    match s.tableau.find? (fun p => decide (s.val p.1 < s.lb p.1) || decide (s.ub p.1 < s.val p.1)) with
    | none => some (true, s)
    | some (xi, l) =>
      if s.val xi < s.lb xi then
        match l.vars.find? (fun p =>
            (decide (0 < l.coeff p.1) && decide (s.val p.1 < s.ub p.1)) ||
            (decide (l.coeff p.1 < 0) && decide (s.lb p.1 < s.val p.1))) with
        | some (xj, _) => checkFuel n (s.pivot_and_update xi xj (s.lb xi))
        | none => some (false, s)
      else if s.ub xi < s.val xi then
        match l.vars.find? (fun p =>
            (decide (0 < l.coeff p.1) && decide (s.lb p.1 < s.val p.1)) ||
            (decide (l.coeff p.1 < 0) && decide (s.val p.1 < s.ub p.1))) with
        | some (xj, _) => checkFuel n (s.pivot_and_update xi xj (s.ub xi))
        | none => some (false, s)
      else checkFuel n s

end Solver

/-! The reason-multiset variable store of `var.cpp`/`var.hpp`. A reason is
a handle to an externally owned `constraint` (a `constraint*` in the C++);
handles are modelled as natural numbers. A bound map (`lbs`, `ubs`) is a
`std::map` from bound values to reason sets, in ascending key order. -/

/-- Reason handles (`constraint*`). -/
abbrev Reason : Type := Nat

/-- A `std::set<constraint*>`: sorted duplicate-free list of handles. -/
abbrev RSet : Type := List Reason

/-- `set.insert(r)`. -/
def RSet.insert : RSet → Reason → RSet
  | [], r => [r]
  | y :: rest, r =>
    if r < y then r :: y :: rest
    else if r = y then y :: rest
    else y :: RSet.insert rest r

/-- `set.erase(r)`. -/
def RSet.erase : RSet → Reason → RSet
  | [], _ => []
  | y :: rest, r => if r = y then rest else y :: RSet.erase rest r

/-- A `std::map<inf_rational, std::set<constraint*>>` in ascending key
order. -/
abbrev BMap : Type := List (IRat × RSet)

/-- `map.find(k)`. -/
def BMap.find (m : BMap) (k : IRat) : Option RSet :=
  (m.find? (fun e => e.1 = k)).map Prod.snd

/-- `map.emplace(k, s)`: insert keeping ascending key order; no effect when
the key is present. -/
def BMap.emplace : BMap → IRat → RSet → BMap
  | [], k, s => [(k, s)]
  | (k₀, s₀) :: rest, k, s =>
    if k < k₀ then (k, s) :: (k₀, s₀) :: rest
    else if k = k₀ then (k₀, s₀) :: rest
    else (k₀, s₀) :: BMap.emplace rest k s

/-- Insert a reason into the set stored at key `k`, creating the entry (in
ascending key order) when absent (the reasoned branch of
`var::set_lb`/`set_ub`). -/
def BMap.addReason : BMap → IRat → Reason → BMap
  | [], k, r => [(k, [r])]
  | (k₀, s₀) :: rest, k, r =>
    if k < k₀ then (k, [r]) :: (k₀, s₀) :: rest
    else if k = k₀ then (k₀, RSet.insert s₀ r) :: rest
    else (k₀, s₀) :: BMap.addReason rest k r

/-- Erase a reason from the set at key `k`, dropping the entry when its set
becomes empty (`var::unset_lb`/`unset_ub`). -/
def BMap.removeReason : BMap → IRat → Reason → BMap
  | [], _, _ => []
  | (k₀, s₀) :: rest, k, r =>
    if k = k₀ then
      (if RSet.erase s₀ r = [] then rest else (k₀, RSet.erase s₀ r) :: rest)
    else (k₀, s₀) :: BMap.removeReason rest k r

/-- `linspire::var` (`var.hpp`): current value plus the two reason-tagged
bound maps. -/
structure VarR where
  val : IRat
  lbs : BMap
  ubs : BMap
  deriving DecidableEq

namespace VarR

/-- `var::var(lb, ub)` (`var.cpp` line 7): the constructor asserts
`lb < ub` and otherwise ignores both arguments; the maps start empty and
the value default-constructs to zero. -/
def create (_lo _hi : IRat) : VarR := ⟨IRat.zero, [], []⟩

/-- Fallback for out-of-range indexing (never reached under the asserted
preconditions). -/
def fallback : VarR := ⟨IRat.zero, [], []⟩

/-- `var::get_lb()`: greatest key of `lbs` (`lbs.rbegin()`), or negative
infinity when the map is empty. -/
def get_lb (x : VarR) : IRat :=
  match x.lbs.getLast? with
  | none => IRat.ninf
  | some e => e.1

/-- `var::get_ub()`: least key of `ubs` (`ubs.begin()`), or positive
infinity when the map is empty. -/
def get_ub (x : VarR) : IRat :=
  match x.ubs.head? with
  | none => IRat.pinf
  | some e => e.1

/-- `var::set_lb(v, reason)` (`var.cpp` lines 12-28). With a reason: add
the reason to the entry at key `v` (creating it when absent). Without:
`lbs.erase(lbs.begin(), lbs.upper_bound(v))` — erase every entry whose key
is less than or equal to `v` — then `lbs.emplace(v, {})`. -/
def set_lb (v : IRat) (reason : Option Reason) (x : VarR) : VarR :=
  match reason with
  | some r => { x with lbs := BMap.addReason x.lbs v r }
  | none =>
    { x with lbs := BMap.emplace (x.lbs.dropWhile (fun e => decide (e.1 ≤ v))) v [] }

/-- `var::set_ub(v, reason)` (`var.cpp` lines 38-54). Without a reason:
`ubs.erase(ubs.lower_bound(v), ubs.end())` — erase every entry whose key is
greater than or equal to `v` — then `ubs.emplace(v, {})`. -/
def set_ub (v : IRat) (reason : Option Reason) (x : VarR) : VarR :=
  match reason with
  | some r => { x with ubs := BMap.addReason x.ubs v r }
  | none =>
    { x with ubs := BMap.emplace (x.ubs.takeWhile (fun e => decide (e.1 < v))) v [] }

/-- `var::unset_lb(v, reason)` (`var.cpp` lines 29-36). -/
def unset_lb (v : IRat) (r : Reason) (x : VarR) : VarR :=
  { x with lbs := BMap.removeReason x.lbs v r }

/-- `var::unset_ub(v, reason)` (`var.cpp` lines 55-62). -/
def unset_ub (v : IRat) (r : Reason) (x : VarR) : VarR :=
  { x with ubs := BMap.removeReason x.ubs v r }

/-- Reasons recorded at the effective lower bound (used by conflict
extraction; empty when the variable has no lower bound). -/
def lb_reasons (x : VarR) : RSet :=
  match x.lbs.getLast? with
  | none => []
  | some e => e.2

/-- Reasons recorded at the effective upper bound. -/
def ub_reasons (x : VarR) : RSet :=
  match x.ubs.head? with
  | none => []
  | some e => e.2

end VarR

/-- `linspire::constraint` (`linspire.hpp` lines 244-250): the per-handle
record of the bounds the solver installed on its behalf,
`std::map<utils::var, utils::inf_rational> lbs, ubs`. -/
structure Constraint where
  lbs : KMap IRat
  ubs : KMap IRat
  deriving DecidableEq

/-- Modelled from the spec: `solver::retract` is declared in
`linspire.hpp` (line 179) but its definition is not under `src`; this
follows spec section 4.7 — for every `(x, v)` in the constraint's recorded
lower bounds, `unset_lb(v, c)` on variable `x` (using `var::unset_lb` from
`var.cpp`), symmetrically for upper bounds, then clear the constraint's
recorded bounds. The store's values are left unchanged (spec section 9:
the source leaves `val` unchanged, relying on the next `check`). `cid` is
the handle of the constraint being retracted. -/
def retract (store : List VarR) (cid : Reason) (c : Constraint) :
    List VarR × Constraint :=
  let st₁ :=
    c.lbs.foldl
      (fun st p => st.set p.1 (VarR.unset_lb p.2 cid (st.getD p.1 VarR.fallback)))
      store
  let st₂ :=
    c.ubs.foldl
      (fun st p => st.set p.1 (VarR.unset_ub p.2 cid (st.getD p.1 VarR.fallback)))
      st₁
  (st₂, ⟨[], []⟩)

/-! The reason-aware solver generation: `linspire.hpp` declares it and
`var.cpp` implements its variable store, but its `linspire.cpp` is not
under `src`. The pivoting loop is taken from the `check()` that is in
`src` (`linspire.cpp` lines 388-418, identical loop logic); the conflict
extraction it is missing is modelled from spec section 4.6, and the
reason-forwarding `set_lb`/`set_ub` from spec section 4.1. -/

/-- Reason-aware solver state: variable store (`var.cpp` variables), the
tableau, the watch index, and the stored conflict `cnfl` returned by
`get_conflict()` (`linspire.hpp` line 202). -/
structure SolverR where
  vars : List VarR
  tableau : KMap Lin
  twatches : List VSet
  cnfl : List Reason
  deriving DecidableEq

namespace SolverR

/-- `solver::val(x)`. -/
def val (s : SolverR) (x : Var) : IRat := (s.vars.getD x VarR.fallback).val

/-- `solver::lb(x)`: the store's effective lower bound. -/
def lb (s : SolverR) (x : Var) : IRat := (s.vars.getD x VarR.fallback).get_lb

/-- `solver::ub(x)`: the store's effective upper bound. -/
def ub (s : SolverR) (x : Var) : IRat := (s.vars.getD x VarR.fallback).get_ub

/-- `solver::get_conflict()` (`linspire.hpp` line 202): a reference to the
stored conflict. -/
def get_conflict (s : SolverR) : List Reason := s.cnfl

/-- `solver::is_basic(x)`. -/
def is_basic (s : SolverR) (x : Var) : Bool := (KMap.lookup s.tableau x).isSome

/-- `solver::new_var(lb, ub)` over the reason-multiset store
(`linspire.cpp` lines 287-294 with the store of `var.cpp`): append a fresh
variable built by `var::var(lb, ub)` and an empty watch set. -/
def new_var (s : SolverR) (lo hi : IRat) : Var × SolverR :=
  (s.vars.length,
   { s with vars := s.vars ++ [VarR.create lo hi], twatches := s.twatches ++ [[]] })

/-- Write `vars[x].val = v` in the reason-aware store. -/
def setValR (vs : List VarR) (x : Var) (v : IRat) : List VarR :=
  vs.set x { vs.getD x VarR.fallback with val := v }

/-- `solver::update(x, v)` on the reason-aware store (same loop as the
`src` revision). -/
def update (s : SolverR) (x : Var) (v : IRat) : SolverR :=
  let vs :=
    (s.twatches.getD x []).foldl
      (fun vs xj =>
        setValR vs xj
          (((vs.getD xj VarR.fallback).val).add
            ((IRat.sub v (vs.getD x VarR.fallback).val).mulQ
              (((KMap.lookup s.tableau xj).getD Lin.zero).coeff x))))
      s.vars
  { s with vars := setValR vs x v }

/-- Modelled from the spec: the reason-aware `solver::set_lb(x, v, reason)`
is declared in `linspire.hpp` (line 222) but not defined under `src`.
Following spec section 4.1: fail iff `v` exceeds the effective upper bound
(inserting nothing); otherwise record the bound through `var::set_lb` and,
when the value of the non-basic `x` now violates the effective lower bound,
update it to that bound. The recording of the installed pair into the
externally owned constraint handle is not part of the solver state. -/
def set_lb (s : SolverR) (x : Var) (v : IRat) (reason : Option Reason) :
    Bool × SolverR :=
  if s.ub x < v then (false, s)
  else
    let s₁ : SolverR :=
      { s with vars := s.vars.set x (VarR.set_lb v reason (s.vars.getD x VarR.fallback)) }
    if s₁.val x < s₁.lb x ∧ ¬ s₁.is_basic x = true then (true, s₁.update x (s₁.lb x))
    else (true, s₁)

/-- Modelled from the spec: the reason-aware `solver::set_ub(x, v, reason)`
(see `set_lb`). -/
def set_ub (s : SolverR) (x : Var) (v : IRat) (reason : Option Reason) :
    Bool × SolverR :=
  if v < s.lb x then (false, s)
  else
    let s₁ : SolverR :=
      { s with vars := s.vars.set x (VarR.set_ub v reason (s.vars.getD x VarR.fallback)) }
    if s₁.ub x < s₁.val x ∧ ¬ s₁.is_basic x = true then (true, s₁.update x (s₁.ub x))
    else (true, s₁)

/-- `solver::retract(c)` on the reason-aware solver: spec section 4.7 (see
`LinSpire.retract`); it touches only the variable store and the handle,
not the stored conflict. -/
def retractS (s : SolverR) (cid : Reason) (c : Constraint) :
    SolverR × Constraint :=
  let p := LinSpire.retract s.vars cid c
  ({ s with vars := p.1 }, p.2)

/-- `solver::pivot(x_i, x_j)` on the reason-aware store (row algebra
identical to the `src` revision; bounds live in the store's maps and are
not touched). -/
def pivot (s : SolverR) (xi xj : Var) : SolverR :=
  let row := (KMap.lookup s.tableau xi).getD Lin.zero
  let w₁ := row.vars.foldl (fun w p => w.set p.1 (VSet.erase (w.getD p.1 []) xi)) s.twatches
  let cc := row.coeff xj
  let l₁ : Lin := { row with vars := KMap.erase row.vars xj }
  let l₂ := l₁.divAll (-cc)
  let l₃ : Lin := { l₂ with vars := KMap.emplace l₂.vars xi (1 / cc) }
  let tab₁ := KMap.erase s.tableau xi
  let st :=
    (w₁.getD xj []).foldl
      (fun (st : KMap Lin × List VSet) r =>
        let cl := (KMap.lookup st.1 r).getD Lin.zero
        let cc₂ := cl.coeff xj
        let cl₁ : Lin := { cl with vars := KMap.erase cl.vars xj }
        let res :=
          l₃.vars.foldl
            (fun (q : Lin × List VSet) p =>
              match KMap.lookup q.1.vars p.1 with
              | none =>
                ({ q.1 with vars := KMap.emplace q.1.vars p.1 (p.2 * cc₂) },
                 q.2.set p.1 (VSet.insert (q.2.getD p.1 []) r))
              | some old =>
                if old + p.2 * cc₂ = 0 then
                  ({ q.1 with vars := KMap.erase q.1.vars p.1 },
                   q.2.set p.1 (VSet.erase (q.2.getD p.1 []) r))
                else
                  ({ q.1 with vars := KMap.setVal q.1.vars p.1 (old + p.2 * cc₂) }, q.2))
            (cl₁, st.2)
        (KMap.setVal st.1 r res.1, res.2))
      (tab₁, w₁)
  let w₂ := st.2.set xj []
  let s₁ : SolverR := { s with tableau := st.1, twatches := w₂ }
  { s₁ with
    twatches :=
      l₃.vars.foldl (fun w p => w.set p.1 (VSet.insert (w.getD p.1 []) xj)) s₁.twatches,
    tableau := KMap.emplace s₁.tableau xj l₃ }

/-- `solver::pivot_and_update(x_i, x_j, v)` on the reason-aware store. -/
def pivot_and_update (s : SolverR) (xi xj : Var) (v : IRat) : SolverR :=
  let a := ((KMap.lookup s.tableau xi).getD Lin.zero).coeff xj
  let theta := (IRat.sub v (s.val xi)).divQ a
  let vs₁ := setValR s.vars xi v
  let vs₂ := setValR vs₁ xj ((vs₁.getD xj VarR.fallback).val.add theta)
  let vs₃ :=
    (s.twatches.getD xj []).foldl
      (fun vs xk =>
        if xk = xi then vs
        else
          setValR vs xk
            ((vs.getD xk VarR.fallback).val.add
              (theta.mulQ (((KMap.lookup s.tableau xk).getD Lin.zero).coeff xj))))
      vs₂
  SolverR.pivot { s with vars := vs₃ } xi xj

/-- Modelled from the spec (section 4.6): the conflict emitted when a
lower-bound violation at row `x_i = l` has no legal pivot — every reason at
the effective lower bound of `x_i`, and for each `x_j` of the row the
reasons at the bound blocking movement (`ub` for a positive coefficient,
`lb` for a negative one). Bounds with empty reason sets contribute
nothing. -/
def explain_lower (s : SolverR) (xi : Var) (l : Lin) : List Reason :=
  ((s.vars.getD xi VarR.fallback).lb_reasons ++
    l.vars.foldl
      (fun acc p =>
        acc ++
          (if 0 < p.2 then (s.vars.getD p.1 VarR.fallback).ub_reasons
           else (s.vars.getD p.1 VarR.fallback).lb_reasons))
      []).dedup

/-- Modelled from the spec (section 4.6): the conflict for an upper-bound
violation, dually. -/
def explain_upper (s : SolverR) (xi : Var) (l : Lin) : List Reason :=
  ((s.vars.getD xi VarR.fallback).ub_reasons ++
    l.vars.foldl
      (fun acc p =>
        acc ++
          (if 0 < p.2 then (s.vars.getD p.1 VarR.fallback).lb_reasons
           else (s.vars.getD p.1 VarR.fallback).ub_reasons))
      []).dedup

/-- `solver::check()` for the reason-aware generation: the pivoting loop of
the `check()` under `src` (`linspire.cpp` lines 388-418), with the conflict
extraction modelled from spec section 4.6 — on reporting infeasibility the
conflict is stored in the solver (`cnfl`); nothing else writes `cnfl`.
Fuel stands for the unbounded `while (true)` loop. -/
def checkFuel : Nat → SolverR → Option (Bool × SolverR)
  | 0, _ => none
  | n + 1, s =>
    match s.tableau.find? (fun p => decide (s.val p.1 < s.lb p.1) || decide (s.ub p.1 < s.val p.1)) with
    | none => some (true, s)
    | some (xi, l) =>
      if s.val xi < s.lb xi then
        match l.vars.find? (fun p =>
            (decide (0 < l.coeff p.1) && decide (s.val p.1 < s.ub p.1)) ||
            (decide (l.coeff p.1 < 0) && decide (s.lb p.1 < s.val p.1))) with
        | some (xj, _) => checkFuel n (s.pivot_and_update xi xj (s.lb xi))
        | none => some (false, { s with cnfl := s.explain_lower xi l })
      else if s.ub xi < s.val xi then
        match l.vars.find? (fun p =>
            (decide (0 < l.coeff p.1) && decide (s.lb p.1 < s.val p.1)) ||
            (decide (l.coeff p.1 < 0) && decide (s.val p.1 < s.ub p.1))) with
        | some (xj, _) => checkFuel n (s.pivot_and_update xi xj (s.ub xi))
        | none => some (false, { s with cnfl := s.explain_upper xi l })
      else checkFuel n s

end SolverR

/-! Helper lemmas shared by several theorems. -/

/-- `List.set` at one index leaves every other index unchanged. -/
theorem getD_set_ne {α : Type} (l : List α) (i j : Nat) (a d : α) (h : j ≠ i) :
    (l.set i a).getD j d = l.getD j d := by
  rw [List.getD_eq_getElem?_getD, List.getD_eq_getElem?_getD,
    List.getElem?_set_ne (fun hh => h hh.symm)]

/-- The bounds view of a variable store: everything but the values. -/
def bview (vs : List SVar) : List (IRat × IRat) := vs.map fun a => (a.lb, a.ub)

theorem bview_setVal (vs : List SVar) (x : Var) (v : IRat) :
    bview (setVal vs x v) = bview vs := by
  induction vs generalizing x with
  | nil => rfl
  | cons a t ih =>
    cases x with
    | zero => simp [setVal, bview, List.getD]
    | succ n =>
      simpa [setVal, bview, List.getD] using congrArg (fun l => (a.lb, a.ub) :: l) (ih n)

theorem bview_foldl {β : Type} (l : List β) (g : List SVar → β → List SVar)
    (hg : ∀ vs b, bview (g vs b) = bview vs) :
    ∀ vs : List SVar, bview (l.foldl g vs) = bview vs := by
  induction l with
  | nil => intro vs; rfl
  | cons b t ih => intro vs; rw [List.foldl_cons, ih, hg]

/-- Reading the bounds through equal bounds views gives equal results. -/
theorem bounds_eq_of_bview {vs vs' : List SVar} (h : bview vs = bview vs') (x : Var) :
    (vs.getD x svDefault).lb = (vs'.getD x svDefault).lb ∧
      (vs.getD x svDefault).ub = (vs'.getD x svDefault).ub := by
  have h2 : (bview vs)[x]? = (bview vs')[x]? := by rw [h]
  unfold bview at h2
  rw [List.getElem?_map, List.getElem?_map] at h2
  rw [List.getD_eq_getElem?_getD, List.getD_eq_getElem?_getD]
  cases hv : vs[x]? with
  | none =>
    cases hv' : vs'[x]? with
    | none => exact ⟨rfl, rfl⟩
    | some b => rw [hv, hv'] at h2; simp at h2
  | some a =>
    cases hv' : vs'[x]? with
    | none => rw [hv, hv'] at h2; simp at h2
    | some b =>
      rw [hv, hv'] at h2
      simp only [Option.map_some', Option.some.injEq, Prod.mk.injEq] at h2
      simpa using h2

/-- `solver::update` changes values only: the bounds view is preserved. -/
theorem update_bview (s : Solver) (x : Var) (v : IRat) :
    bview (Solver.update s x v).vars = bview s.vars := by
  unfold Solver.update
  rw [bview_setVal]
  exact bview_foldl _ _ (fun vs b => bview_setVal vs b _) s.vars

/-- Characterisation of `set_lb`: the only failing branch is
`v > ub(x)` reached past the `v <= lb(x)` no-op test, and failure returns
the state unchanged. -/
theorem set_lb_spec (s : Solver) (x : Var) (v : IRat) :
    ((Solver.set_lb s x v).1 = false ↔ (¬ v ≤ s.lb x ∧ s.ub x < v)) ∧
      ((Solver.set_lb s x v).1 = false → (Solver.set_lb s x v).2 = s) := by
  by_cases h1 : v ≤ s.lb x
  · constructor
    · simp [Solver.set_lb, h1]
    · intro hf; simp [Solver.set_lb, h1] at hf
  · by_cases h2 : s.ub x < v
    · constructor
      · simp [Solver.set_lb, h1, h2]
      · intro _; simp [Solver.set_lb, h1, h2]
    · constructor
      · simp only [Solver.set_lb, if_neg h1, if_neg h2]
        constructor
        · intro hf; split at hf <;> simp at hf
        · intro hf; exact absurd hf.2 h2
      · intro hf
        simp only [Solver.set_lb, if_neg h1, if_neg h2] at hf
        split at hf <;> simp at hf

/-- Characterisation of `set_ub`, dual to `set_lb_spec`. -/
theorem set_ub_spec (s : Solver) (x : Var) (v : IRat) :
    ((Solver.set_ub s x v).1 = false ↔ (¬ s.ub x ≤ v ∧ v < s.lb x)) ∧
      ((Solver.set_ub s x v).1 = false → (Solver.set_ub s x v).2 = s) := by
  by_cases h1 : s.ub x ≤ v
  · constructor
    · simp [Solver.set_ub, h1]
    · intro hf; simp [Solver.set_ub, h1] at hf
  · by_cases h2 : v < s.lb x
    · constructor
      · simp [Solver.set_ub, h1, h2]
      · intro _; simp [Solver.set_ub, h1, h2]
    · constructor
      · simp only [Solver.set_ub, if_neg h1, if_neg h2]
        constructor
        · intro hf; split at hf <;> simp at hf
        · intro hf; exact absurd hf.2 h2
      · intro hf
        simp only [Solver.set_ub, if_neg h1, if_neg h2] at hf
        split at hf <;> simp at hf

/-- Bounds of a variable other than the one being set are untouched by
`set_lb`. -/
theorem set_lb_frame_other (s : Solver) (x : Var) (v : IRat) (y : Var) (hy : y ≠ x) :
    (Solver.set_lb s x v).2.lb y = s.lb y ∧ (Solver.set_lb s x v).2.ub y = s.ub y := by
  by_cases h1 : v ≤ s.lb x
  · simp [Solver.set_lb, h1]
  · by_cases h2 : s.ub x < v
    · simp [Solver.set_lb, h1, h2]
    · have hset : (setLbField s.vars x v).getD y svDefault = s.vars.getD y svDefault := by
        unfold setLbField
        exact getD_set_ne _ _ _ _ _ hy
      simp only [Solver.set_lb, if_neg h1, if_neg h2]
      split
      · have hb := update_bview { s with vars := setLbField s.vars x v } x v
        obtain ⟨hbl, hbu⟩ := bounds_eq_of_bview hb y
        constructor
        · show _ = s.lb y
          simp only [Solver.lb] at hbl ⊢
          rw [hbl]
          exact congrArg SVar.lb hset
        · show _ = s.ub y
          simp only [Solver.ub] at hbu ⊢
          rw [hbu]
          exact congrArg SVar.ub hset
      · exact ⟨congrArg SVar.lb hset, congrArg SVar.ub hset⟩

/-- Bounds of a variable other than the one being set are untouched by
`set_ub`. -/
theorem set_ub_frame_other (s : Solver) (x : Var) (v : IRat) (y : Var) (hy : y ≠ x) :
    (Solver.set_ub s x v).2.lb y = s.lb y ∧ (Solver.set_ub s x v).2.ub y = s.ub y := by
  by_cases h1 : s.ub x ≤ v
  · simp [Solver.set_ub, h1]
  · by_cases h2 : v < s.lb x
    · simp [Solver.set_ub, h1, h2]
    · have hset : (setUbField s.vars x v).getD y svDefault = s.vars.getD y svDefault := by
        unfold setUbField
        exact getD_set_ne _ _ _ _ _ hy
      simp only [Solver.set_ub, if_neg h1, if_neg h2]
      split
      · have hb := update_bview { s with vars := setUbField s.vars x v } x v
        obtain ⟨hbl, hbu⟩ := bounds_eq_of_bview hb y
        constructor
        · show _ = s.lb y
          simp only [Solver.lb] at hbl ⊢
          rw [hbl]
          exact congrArg SVar.lb hset
        · show _ = s.ub y
          simp only [Solver.ub] at hbu ⊢
          rw [hbu]
          exact congrArg SVar.ub hset
      · exact ⟨congrArg SVar.lb hset, congrArg SVar.ub hset⟩

/-! Theorems. -/

/-- C3: provided the bounds of `x` are consistent (`lb(x) <= ub(x)`, the
solver's maintained invariant), `set_lb(x, v)` returns `false` exactly when
`v` exceeds the effective upper bound, and on failure the whole solver
state is returned unchanged; `set_ub(x, v)` fails exactly when `v` is below
the effective lower bound, symmetrically. -/
theorem C3_set_bound_failure (s : Solver) (x : Var) (v : IRat) (h : s.lb x ≤ s.ub x) :
    ((Solver.set_lb s x v).1 = false ↔ s.ub x < v) ∧
      ((Solver.set_lb s x v).1 = false → (Solver.set_lb s x v).2 = s) ∧
      ((Solver.set_ub s x v).1 = false ↔ v < s.lb x) ∧
      ((Solver.set_ub s x v).1 = false → (Solver.set_ub s x v).2 = s) := by
  obtain ⟨hl1, hl2⟩ := set_lb_spec s x v
  obtain ⟨hu1, hu2⟩ := set_ub_spec s x v
  refine ⟨?_, hl2, ?_, hu2⟩
  · rw [hl1]
    constructor
    · exact fun hh => hh.2
    · exact fun hh => ⟨not_le.mpr (lt_of_le_of_lt h hh), hh⟩
  · rw [hu1]
    constructor
    · exact fun hh => hh.2
    · exact fun hh => ⟨not_le.mpr (lt_of_lt_of_le hh h), hh⟩

/-- Witness for C3 at a concrete input: one variable bounded by `[0, 1]`
and the attempt `set_lb(x, 2)` / `set_ub(x, 2)`. -/
theorem C3_witness :
    (Solver.lb ⟨[⟨IRat.zero, IRat.mk' 0 0, IRat.mk' 1 0⟩], [], [], [[]]⟩ 0 ≤
        Solver.ub ⟨[⟨IRat.zero, IRat.mk' 0 0, IRat.mk' 1 0⟩], [], [], [[]]⟩ 0) ∧
      (((Solver.set_lb ⟨[⟨IRat.zero, IRat.mk' 0 0, IRat.mk' 1 0⟩], [], [], [[]]⟩ 0 (IRat.mk' 2 0)).1 = false ↔
          Solver.ub ⟨[⟨IRat.zero, IRat.mk' 0 0, IRat.mk' 1 0⟩], [], [], [[]]⟩ 0 < IRat.mk' 2 0) ∧
        ((Solver.set_lb ⟨[⟨IRat.zero, IRat.mk' 0 0, IRat.mk' 1 0⟩], [], [], [[]]⟩ 0 (IRat.mk' 2 0)).1 = false →
          (Solver.set_lb ⟨[⟨IRat.zero, IRat.mk' 0 0, IRat.mk' 1 0⟩], [], [], [[]]⟩ 0 (IRat.mk' 2 0)).2 =
            ⟨[⟨IRat.zero, IRat.mk' 0 0, IRat.mk' 1 0⟩], [], [], [[]]⟩) ∧
        ((Solver.set_ub ⟨[⟨IRat.zero, IRat.mk' 0 0, IRat.mk' 1 0⟩], [], [], [[]]⟩ 0 (IRat.mk' 2 0)).1 = false ↔
          IRat.mk' 2 0 < Solver.lb ⟨[⟨IRat.zero, IRat.mk' 0 0, IRat.mk' 1 0⟩], [], [], [[]]⟩ 0) ∧
        ((Solver.set_ub ⟨[⟨IRat.zero, IRat.mk' 0 0, IRat.mk' 1 0⟩], [], [], [[]]⟩ 0 (IRat.mk' 2 0)).1 = false →
          (Solver.set_ub ⟨[⟨IRat.zero, IRat.mk' 0 0, IRat.mk' 1 0⟩], [], [], [[]]⟩ 0 (IRat.mk' 2 0)).2 =
            ⟨[⟨IRat.zero, IRat.mk' 0 0, IRat.mk' 1 0⟩], [], [], [[]]⟩)) :=
  ⟨by decide,
   C3_set_bound_failure ⟨[⟨IRat.zero, IRat.mk' 0 0, IRat.mk' 1 0⟩], [], [], [[]]⟩ 0
     (IRat.mk' 2 0) (by decide)⟩

/-- C9: for every pair of arguments `lb ≤ ub`, the variable returned by
`new_var(lb, ub)` over the reason-multiset variable store has effective
lower bound −∞ and effective upper bound +∞: the `var` constructor
(`var.cpp` line 7) asserts `lb < ub` and discards both arguments, so the
bounds passed to `new_var` never constrain the new variable (witnessed
also by the constructor being constant in its arguments). -/
theorem C9_new_var_discards_bounds (s : SolverR) (lo hi : IRat) (_h : lo ≤ hi) :
    (SolverR.lb (SolverR.new_var s lo hi).2 (SolverR.new_var s lo hi).1 = IRat.ninf) ∧
    (SolverR.ub (SolverR.new_var s lo hi).2 (SolverR.new_var s lo hi).1 = IRat.pinf) ∧
    ∀ lo' hi' : IRat, VarR.create lo hi = VarR.create lo' hi' := by
  refine ⟨?_, ?_, fun _ _ => rfl⟩ <;>
    simp [SolverR.new_var, SolverR.lb, SolverR.ub, List.getD, VarR.create,
      VarR.get_lb, VarR.get_ub]

/-- Witness for C9 at a concrete input: a variable created with bounds
`[0, 1]` on the empty reason-aware solver is effectively unbounded. -/
theorem C9_witness :
    IRat.zero ≤ IRat.mk' 1 0 ∧
      ((SolverR.lb (SolverR.new_var ⟨[], [], [], []⟩ IRat.zero (IRat.mk' 1 0)).2
          (SolverR.new_var ⟨[], [], [], []⟩ IRat.zero (IRat.mk' 1 0)).1 = IRat.ninf) ∧
       (SolverR.ub (SolverR.new_var ⟨[], [], [], []⟩ IRat.zero (IRat.mk' 1 0)).2
          (SolverR.new_var ⟨[], [], [], []⟩ IRat.zero (IRat.mk' 1 0)).1 = IRat.pinf) ∧
       ∀ lo' hi' : IRat, VarR.create IRat.zero (IRat.mk' 1 0) = VarR.create lo' hi') :=
  ⟨by decide, C9_new_var_discards_bounds ⟨[], [], [], []⟩ IRat.zero (IRat.mk' 1 0) (by decide)⟩

/-- C8: retracting the same constraint twice in immediate succession
equals a single retraction — the first `retract` clears the constraint's
recorded bounds (spec section 4.7 step 3), so the second iterates over
empty maps and changes nothing. -/
theorem C8_retract_idempotent (s : SolverR) (cid : Reason) (c : Constraint) :
    SolverR.retractS (SolverR.retractS s cid c).1 cid (SolverR.retractS s cid c).2 =
      SolverR.retractS s cid c := rfl

/-- C4 behaviour at a concrete input: a store variable whose `lbs` map is
exactly one entry, key 5 with reason set containing handle 3. An anonymous
`var::set_lb(5)` erases `lbs.begin() .. lbs.upper_bound(5)` — every key
less than *or equal to* 5 — so the reason set previously recorded at key 5
itself is destroyed and replaced by the empty set, contrary to the claim
(and to the code's own comment, which says it removes the bounds *less
than* `v`). `var::set_ub` loses the entry at the key dually. -/
theorem C4_eval :
    (VarR.set_lb (IRat.mk' 5 0) none ⟨IRat.zero, [(IRat.mk' 5 0, [3])], []⟩).lbs =
        [(IRat.mk' 5 0, [])] ∧
      (VarR.set_lb (IRat.mk' 5 0) none ⟨IRat.zero, [(IRat.mk' 5 0, [3])], []⟩).lbs ≠
        [(IRat.mk' 5 0, [3])] ∧
      (VarR.set_ub (IRat.mk' 5 0) none ⟨IRat.zero, [], [(IRat.mk' 5 0, [3])]⟩).ubs =
        [(IRat.mk' 5 0, [])] := by
  refine ⟨?_, ?_, ?_⟩ <;> with_unfolding_all decide

/-- C2 behaviour at the failing inputs: the constant case of `new_lt`
(`linspire.cpp` lines 365-368 and 78-81, identical in every revision)
returns `is_negative(k) || (strict && is_zero(k))`, so
`new_lt(0, 0, strict=false)` returns `false` and `new_lt(0, 0, strict=true)`
returns `true` — exactly opposite to the claim, to spec section 8 scenario
F, and to the repository's own test
`test_constant_inequality_strictness` (`tests/test_linspire.cpp`). -/
theorem C2_eval :
    (Solver.new_lt Solver.empty (Lin.const 0) (Lin.const 0) false).1 = false ∧
      (Solver.new_lt Solver.empty (Lin.const 0) (Lin.const 0) true).1 = true := by
  constructor <;> with_unfolding_all decide

/-- C5: when the expression left after basic-variable substitution is the
single term `c·x + k` (`c ≠ 0`), `new_lt` is exactly a `set_ub` of
`rhs' = (−k − δ·[strict])/c` on `x` for `c > 0` and exactly a `set_lb` of
`rhs'` for `c < 0`; in either case the bounds of every variable other than
`x` are unchanged. -/
theorem C5_single_var (s : Solver) (lhs rhs : Lin) (strict : Bool) (x : Var) (c : ℚ)
    (h : (Solver.subst s (Lin.sub lhs rhs)).vars = [(x, c)]) :
    (0 < c →
      Solver.new_lt s lhs rhs strict =
        Solver.set_ub s x
          ((IRat.mk' (-(Solver.subst s (Lin.sub lhs rhs)).known)
            (if strict then -1 else 0)).divQ c)) ∧
    (c < 0 →
      Solver.new_lt s lhs rhs strict =
        Solver.set_lb s x
          ((IRat.mk' (-(Solver.subst s (Lin.sub lhs rhs)).known)
            (if strict then -1 else 0)).divQ c)) ∧
    (∀ y, y ≠ x →
      (Solver.new_lt s lhs rhs strict).2.lb y = s.lb y ∧
        (Solver.new_lt s lhs rhs strict).2.ub y = s.ub y) := by
  have key : Solver.new_lt s lhs rhs strict =
      if 0 < c then
        Solver.set_ub s x
          ((IRat.mk' (-(Solver.subst s (Lin.sub lhs rhs)).known)
            (if strict then -1 else 0)).divQ c)
      else
        Solver.set_lb s x
          ((IRat.mk' (-(Solver.subst s (Lin.sub lhs rhs)).known)
            (if strict then -1 else 0)).divQ c) := by
    simp only [Solver.new_lt]
    rw [h]
  refine ⟨?_, ?_, ?_⟩
  · intro hc; rw [key, if_pos hc]
  · intro hc; rw [key, if_neg (not_lt.mpr (le_of_lt hc))]
  · intro y hy
    rw [key]
    split
    · exact set_ub_frame_other s x _ y hy
    · exact set_lb_frame_other s x _ y hy

/-- Witness for C5 at a concrete input: one free variable and the strict
assertion `2·x0 + 1 < 0`; the substituted expression is `2·x0 + 1` and the
call equals `set_ub(x0, (−1 − δ)/2)`. -/
theorem C5_witness :
    ((Solver.subst ⟨[⟨IRat.zero, IRat.ninf, IRat.pinf⟩], [], [], [[]]⟩
        (Lin.sub (Lin.term 0 2 1) (Lin.const 0))).vars = [(0, 2)]) ∧
      ((0 < (2 : ℚ) →
        Solver.new_lt ⟨[⟨IRat.zero, IRat.ninf, IRat.pinf⟩], [], [], [[]]⟩
            (Lin.term 0 2 1) (Lin.const 0) true =
          Solver.set_ub ⟨[⟨IRat.zero, IRat.ninf, IRat.pinf⟩], [], [], [[]]⟩ 0
            ((IRat.mk'
              (-(Solver.subst ⟨[⟨IRat.zero, IRat.ninf, IRat.pinf⟩], [], [], [[]]⟩
                  (Lin.sub (Lin.term 0 2 1) (Lin.const 0))).known)
              (if true then -1 else 0)).divQ 2)) ∧
      ((2 : ℚ) < 0 →
        Solver.new_lt ⟨[⟨IRat.zero, IRat.ninf, IRat.pinf⟩], [], [], [[]]⟩
            (Lin.term 0 2 1) (Lin.const 0) true =
          Solver.set_lb ⟨[⟨IRat.zero, IRat.ninf, IRat.pinf⟩], [], [], [[]]⟩ 0
            ((IRat.mk'
              (-(Solver.subst ⟨[⟨IRat.zero, IRat.ninf, IRat.pinf⟩], [], [], [[]]⟩
                  (Lin.sub (Lin.term 0 2 1) (Lin.const 0))).known)
              (if true then -1 else 0)).divQ 2)) ∧
      (∀ y, y ≠ 0 →
        (Solver.new_lt ⟨[⟨IRat.zero, IRat.ninf, IRat.pinf⟩], [], [], [[]]⟩
            (Lin.term 0 2 1) (Lin.const 0) true).2.lb y =
          Solver.lb ⟨[⟨IRat.zero, IRat.ninf, IRat.pinf⟩], [], [], [[]]⟩ y ∧
        (Solver.new_lt ⟨[⟨IRat.zero, IRat.ninf, IRat.pinf⟩], [], [], [[]]⟩
            (Lin.term 0 2 1) (Lin.const 0) true).2.ub y =
          Solver.ub ⟨[⟨IRat.zero, IRat.ninf, IRat.pinf⟩], [], [], [[]]⟩ y)) :=
  ⟨by with_unfolding_all decide,
   C5_single_var ⟨[⟨IRat.zero, IRat.ninf, IRat.pinf⟩], [], [], [[]]⟩
     (Lin.term 0 2 1) (Lin.const 0) true 0 2 (by with_unfolding_all decide)⟩

/-- `solver::pivot` never touches the variable records. -/
theorem pivot_vars (s : Solver) (xi xj : Var) : (Solver.pivot s xi xj).vars = s.vars := rfl

/-- `solver::pivot_and_update` changes values only: the bounds view is
preserved. -/
theorem pu_bview (s : Solver) (xi xj : Var) (v : IRat) :
    bview (Solver.pivot_and_update s xi xj v).vars = bview s.vars := by
  simp only [Solver.pivot_and_update]
  rw [pivot_vars]
  show bview (List.foldl _ _ _) = _
  rw [bview_foldl _ _ (fun vs b => ?step), bview_setVal, bview_setVal]
  case step =>
    by_cases hb : b = xi
    · simp [hb]
    · simp [hb, bview_setVal]

/-- Any terminating run of the `check()` loop preserves the bounds view:
no iteration writes a bound. -/
theorem checkFuel_bview :
    ∀ (n : Nat) (s : Solver) (b : Bool) (s' : Solver),
      Solver.checkFuel n s = some (b, s') → bview s'.vars = bview s.vars := by
  intro n
  induction n with
  | zero => intro s b s' h; exact absurd h (by simp [Solver.checkFuel])
  | succ n ih =>
    intro s b s' h
    rw [Solver.checkFuel] at h
    split at h
    · simp only [Option.some.injEq, Prod.mk.injEq] at h
      rw [← h.2]
    · split at h
      · split at h
        · exact (ih _ _ _ h).trans (pu_bview _ _ _ _)
        · simp only [Option.some.injEq, Prod.mk.injEq] at h
          rw [← h.2]
      · split at h
        · split at h
          · exact (ih _ _ _ h).trans (pu_bview _ _ _ _)
          · simp only [Option.some.injEq, Prod.mk.injEq] at h
            rw [← h.2]
        · exact ih _ _ _ h

/-- C7 (amended): when `check()` returns `false`, every variable's lower
and upper bound are exactly as they were when `check()` was called; the
*values*, however, may have been changed by the pivots performed before the
failing iteration (see the counterexample). -/
theorem C7_failing_check_preserves_bounds (n : Nat) (s s' : Solver)
    (h : Solver.checkFuel n s = some (false, s')) :
    ∀ x, s'.lb x = s.lb x ∧ s'.ub x = s.ub x := by
  intro x
  exact bounds_eq_of_bview (checkFuel_bview n s false s' h) x

/-- A state on which `check()` fails only after one pivot: `x0` free
non-basic, basic rows `x1 = x0` with `lb(x1) = 1` and `x2 = x0` with
`ub(x2) = -1`, all values zero. The first iteration pivots `x1` with `x0`
(raising `val(x0)` to 1), the second finds `x2` stuck and reports
infeasibility. -/
def cexState : Solver :=
  ⟨[⟨IRat.zero, IRat.ninf, IRat.pinf⟩,
    ⟨IRat.zero, IRat.mk' 1 0, IRat.pinf⟩,
    ⟨IRat.zero, IRat.ninf, IRat.mk' (-1) 0⟩],
   [],
   [(1, ⟨[(0, 1)], 0⟩), (2, ⟨[(0, 1)], 0⟩)],
   [[1, 2], [], []]⟩

/-- C7 counterexample: on `cexState`, `check()` returns `false`, yet the
value of `x0` (and of every other variable) is 1 where it was 0 at the
moment of the call — a failing `check` does *not* leave values as they
were. -/
theorem C7_counterexample :
    (Solver.checkFuel 5 cexState).map Prod.fst = some false ∧
      (Solver.checkFuel 5 cexState).map (fun p => Solver.val p.2 0) = some (IRat.mk' 1 0) ∧
      Solver.val cexState 0 = IRat.mk' 0 0 := by
  refine ⟨?_, ?_, ?_⟩ <;> with_unfolding_all decide

/-- The state in which the failing run on `cexState` ends. -/
def cexAfter : Solver :=
  ⟨[⟨IRat.mk' 1 0, IRat.ninf, IRat.pinf⟩,
    ⟨IRat.mk' 1 0, IRat.mk' 1 0, IRat.pinf⟩,
    ⟨IRat.mk' 1 0, IRat.ninf, IRat.mk' (-1) 0⟩],
   [],
   [(0, ⟨[(1, 1)], 0⟩), (2, ⟨[(1, 1)], 0⟩)],
   [[], [0, 2], []]⟩

/-- Witness for the amended C7 at a concrete input: the failing run on
`cexState` ends in `cexAfter`, whose bounds agree everywhere with those of
`cexState`. -/
theorem C7_witness :
    Solver.checkFuel 5 cexState = some (false, cexAfter) ∧
      ∀ x, cexAfter.lb x = cexState.lb x ∧ cexAfter.ub x = cexState.ub x :=
  ⟨by with_unfolding_all decide,
   C7_failing_check_preserves_bounds 5 cexState cexAfter (by with_unfolding_all decide)⟩

/-- `List.set` within range stores the value at the index. -/
theorem getD_set_self {α : Type} (l : List α) (i : Nat) (a d : α) (h : i < l.length) :
    (l.set i a).getD i d = a := by
  rw [List.getD_eq_getElem?_getD, List.getElem?_set_self h]
  rfl

/-- `KMap.emplace` on an absent key makes the value retrievable. -/
theorem lookup_emplace_of_absent {α : Type} (m : KMap α) (x : Var) (a : α)
    (h : KMap.lookup m x = none) : KMap.lookup (KMap.emplace m x a) x = some a := by
  induction m with
  | nil => simp [KMap.emplace, KMap.lookup]
  | cons e rest ih =>
    obtain ⟨y, b⟩ := e
    rw [KMap.lookup] at h
    by_cases hxy : x = y
    · rw [if_pos hxy] at h; exact absurd h (by simp)
    · rw [if_neg hxy] at h
      rw [KMap.emplace]
      by_cases hlt : x < y
      · rw [if_pos hlt, KMap.lookup, if_pos rfl]
      · rw [if_neg hlt, if_neg hxy, KMap.lookup, if_neg hxy]
        exact ih h

/-- A fresh (uncached) `new_var(lin&&)`: the returned slack is the next
variable id, the store grows by one, and the slack's row is installed. -/
theorem new_var_lin_fresh (s : Solver) (l : Lin)
    (hc : s.exprs.find? (fun p => p.1 = l) = none)
    (ht : KMap.lookup s.tableau s.vars.length = none) :
    (Solver.new_var_lin s l).1 = s.vars.length ∧
      (Solver.new_var_lin s l).2.vars.length = s.vars.length + 1 ∧
      KMap.lookup (Solver.new_var_lin s l).2.tableau s.vars.length = some l := by
  simp only [Solver.new_var_lin, hc]
  refine ⟨rfl, ?_, ?_⟩
  · simp [Solver.new_var, Solver.new_row, setVal, List.length_set]
  · show KMap.lookup (KMap.emplace s.tableau s.vars.length l) s.vars.length = some l
    exact lookup_emplace_of_absent s.tableau s.vars.length l ht

/-- After a strict tightening by `set_lb` (neither the no-op nor the
failure branch), the stored lower bound of `x` is exactly `v`. -/
theorem set_lb_lb_self (s : Solver) (x : Var) (v : IRat) (hx : x < s.vars.length)
    (h1 : ¬ v ≤ s.lb x) (h2 : ¬ s.ub x < v) :
    (Solver.set_lb s x v).2.lb x = v := by
  have hfield : (setLbField s.vars x v).getD x svDefault = { s.vars.getD x svDefault with lb := v } := by
    unfold setLbField
    exact getD_set_self _ _ _ _ hx
  simp only [Solver.set_lb, if_neg h1, if_neg h2]
  split
  · have hb := update_bview { s with vars := setLbField s.vars x v } x v
    have hl := (bounds_eq_of_bview hb x).1
    show (((Solver.update { s with vars := setLbField s.vars x v } x v).vars.getD x svDefault).lb) = v
    rw [hl]
    show ((setLbField s.vars x v).getD x svDefault).lb = v
    rw [hfield]
  · show ((setLbField s.vars x v).getD x svDefault).lb = v
    rw [hfield]

/-- If a `set_ub(x, v)` issued right after a successful `set_lb(x, v)`
fails, that `set_lb` must have been the no-op branch, so its state is the
input state. -/
theorem set_lb_then_ub_not_fail (s : Solver) (x : Var) (v : IRat)
    (hx : x < s.vars.length)
    (hf : (Solver.set_ub (Solver.set_lb s x v).2 x v).1 = false) :
    (Solver.set_lb s x v).2 = s := by
  by_cases h1 : v ≤ s.lb x
  · simp [Solver.set_lb, h1]
  · by_cases h2 : s.ub x < v
    · simp [Solver.set_lb, h1, h2]
    · exfalso
      have hvlt := ((set_ub_spec (Solver.set_lb s x v).2 x v).1.mp hf).2
      rw [set_lb_lb_self s x v hx h1 h2] at hvlt
      exact lt_irrefl v hvlt

/-- C10: when the expression left after substitution still has at least two
variables, its zero-known-term form is not in the expression cache and the
next variable id is not yet a tableau key, a failing `new_lt` or `new_eq`
nonetheless leaves the freshly created slack variable and its tableau row
installed: the returned state is exactly the post-creation state (nothing
is rolled back — in particular a lower bound set successfully by `new_eq`
before the failing upper-bound set stays in place), and that state has one
more variable and the new row. -/
theorem C10_failure_not_atomic (s : Solver) (lhs rhs : Lin) (strict : Bool)
    (p₁ p₂ : Var × ℚ) (t : KMap ℚ)
    (h : (Solver.subst s (Lin.sub lhs rhs)).vars = p₁ :: p₂ :: t)
    (hcache : s.exprs.find? (fun p =>
        p.1 = (⟨(Solver.subst s (Lin.sub lhs rhs)).vars, 0⟩ : Lin)) = none)
    (htab : KMap.lookup s.tableau s.vars.length = none) :
    (Solver.new_var_lin s ⟨(Solver.subst s (Lin.sub lhs rhs)).vars, 0⟩).2.vars.length
        = s.vars.length + 1 ∧
      KMap.lookup
          (Solver.new_var_lin s ⟨(Solver.subst s (Lin.sub lhs rhs)).vars, 0⟩).2.tableau
          s.vars.length
        = some ⟨(Solver.subst s (Lin.sub lhs rhs)).vars, 0⟩ ∧
      ((Solver.new_lt s lhs rhs strict).1 = false →
        (Solver.new_lt s lhs rhs strict).2 =
          (Solver.new_var_lin s ⟨(Solver.subst s (Lin.sub lhs rhs)).vars, 0⟩).2) ∧
      ((Solver.new_eq s lhs rhs).1 = false →
        (Solver.new_eq s lhs rhs).2 =
          (Solver.new_var_lin s ⟨(Solver.subst s (Lin.sub lhs rhs)).vars, 0⟩).2) := by
  obtain ⟨hid, hlen, hrow⟩ :=
    new_var_lin_fresh s ⟨(Solver.subst s (Lin.sub lhs rhs)).vars, 0⟩ hcache htab
  refine ⟨hlen, hrow, ?_, ?_⟩
  · have key : Solver.new_lt s lhs rhs strict =
        Solver.set_ub
          (Solver.new_var_lin s ⟨(Solver.subst s (Lin.sub lhs rhs)).vars, 0⟩).2
          (Solver.new_var_lin s ⟨(Solver.subst s (Lin.sub lhs rhs)).vars, 0⟩).1
          (IRat.mk' (-(Solver.subst s (Lin.sub lhs rhs)).known)
            (if strict then -1 else 0)) := by
      simp only [Solver.new_lt]
      rw [h]
    intro hf
    rw [key] at hf ⊢
    exact (set_ub_spec _ _ _).2 hf
  · have key : Solver.new_eq s lhs rhs =
        (if (Solver.set_lb
              (Solver.new_var_lin s ⟨(Solver.subst s (Lin.sub lhs rhs)).vars, 0⟩).2
              (Solver.new_var_lin s ⟨(Solver.subst s (Lin.sub lhs rhs)).vars, 0⟩).1
              (IRat.mk' (-(Solver.subst s (Lin.sub lhs rhs)).known) 0)).1 = true then
          Solver.set_ub
            (Solver.set_lb
              (Solver.new_var_lin s ⟨(Solver.subst s (Lin.sub lhs rhs)).vars, 0⟩).2
              (Solver.new_var_lin s ⟨(Solver.subst s (Lin.sub lhs rhs)).vars, 0⟩).1
              (IRat.mk' (-(Solver.subst s (Lin.sub lhs rhs)).known) 0)).2
            (Solver.new_var_lin s ⟨(Solver.subst s (Lin.sub lhs rhs)).vars, 0⟩).1
            (IRat.mk' (-(Solver.subst s (Lin.sub lhs rhs)).known) 0)
        else
          (false,
            (Solver.set_lb
              (Solver.new_var_lin s ⟨(Solver.subst s (Lin.sub lhs rhs)).vars, 0⟩).2
              (Solver.new_var_lin s ⟨(Solver.subst s (Lin.sub lhs rhs)).vars, 0⟩).1
              (IRat.mk' (-(Solver.subst s (Lin.sub lhs rhs)).known) 0)).2)) := by
      simp only [Solver.new_eq]
      rw [h]
    intro hf
    rw [key] at hf ⊢
    set v := IRat.mk' (-(Solver.subst s (Lin.sub lhs rhs)).known) 0 with hv
    set Q := Solver.new_var_lin s ⟨(Solver.subst s (Lin.sub lhs rhs)).vars, 0⟩ with hQ
    by_cases hp : (Solver.set_lb Q.2 Q.1 v).1 = true
    · rw [if_pos hp] at hf ⊢
      have hframe := (set_ub_spec _ _ _).2 hf
      rw [hframe]
      refine set_lb_then_ub_not_fail Q.2 Q.1 v ?_ hf
      rw [hid, hlen]
      exact Nat.lt_succ_self _
    · rw [if_neg hp] at hf ⊢
      show (Solver.set_lb Q.2 Q.1 v).2 = Q.2
      exact (set_lb_spec Q.2 Q.1 v).2 (by simpa using hp)

/-- Concrete state for the C10 witness: `x0, x1` both bounded below by 0. -/
def c10state : Solver :=
  ⟨[⟨IRat.zero, IRat.mk' 0 0, IRat.pinf⟩, ⟨IRat.zero, IRat.mk' 0 0, IRat.pinf⟩],
   [], [], [[], []]⟩

/-- Left-hand side `x0 + x1` for the C10 witness. -/
def c10lhs : Lin := ⟨[(0, 1), (1, 1)], 0⟩

/-- Right-hand side `-1` for the C10 witness. -/
def c10rhs : Lin := Lin.const (-1)

/-- Witness for C10 at a concrete input: asserting `x0 + x1 <= -1` (or
`= -1`) with `x0, x1 >= 0` creates slack 2 with row `x0 + x1` and then
fails; the failing state keeps the slack and its row. -/
theorem C10_witness :
    ((Solver.subst c10state (Lin.sub c10lhs c10rhs)).vars = (0, 1) :: (1, 1) :: []) ∧
      (c10state.exprs.find? (fun p =>
          p.1 = (⟨(Solver.subst c10state (Lin.sub c10lhs c10rhs)).vars, 0⟩ : Lin)) = none) ∧
      (KMap.lookup c10state.tableau c10state.vars.length = none) ∧
      ((Solver.new_var_lin c10state
            ⟨(Solver.subst c10state (Lin.sub c10lhs c10rhs)).vars, 0⟩).2.vars.length
          = c10state.vars.length + 1 ∧
        KMap.lookup
            (Solver.new_var_lin c10state
              ⟨(Solver.subst c10state (Lin.sub c10lhs c10rhs)).vars, 0⟩).2.tableau
            c10state.vars.length
          = some ⟨(Solver.subst c10state (Lin.sub c10lhs c10rhs)).vars, 0⟩ ∧
        ((Solver.new_lt c10state c10lhs c10rhs false).1 = false →
          (Solver.new_lt c10state c10lhs c10rhs false).2 =
            (Solver.new_var_lin c10state
              ⟨(Solver.subst c10state (Lin.sub c10lhs c10rhs)).vars, 0⟩).2) ∧
        ((Solver.new_eq c10state c10lhs c10rhs).1 = false →
          (Solver.new_eq c10state c10lhs c10rhs).2 =
            (Solver.new_var_lin c10state
              ⟨(Solver.subst c10state (Lin.sub c10lhs c10rhs)).vars, 0⟩).2)) :=
  ⟨by with_unfolding_all decide, by with_unfolding_all decide,
   by with_unfolding_all decide,
   C10_failure_not_atomic c10state c10lhs c10rhs false (0, 1) (1, 1) []
     (by with_unfolding_all decide) (by with_unfolding_all decide)
     (by with_unfolding_all decide)⟩

/-- The reason-aware `set_lb` never touches the stored conflict. -/
theorem set_lbR_cnfl (s : SolverR) (x : Var) (v : IRat) (r : Option Reason) :
    (SolverR.set_lb s x v r).2.cnfl = s.cnfl := by
  by_cases h1 : s.ub x < v
  · simp [SolverR.set_lb, h1]
  · simp only [SolverR.set_lb, if_neg h1]
    split <;> rfl

/-- The reason-aware `set_ub` never touches the stored conflict. -/
theorem set_ubR_cnfl (s : SolverR) (x : Var) (v : IRat) (r : Option Reason) :
    (SolverR.set_ub s x v r).2.cnfl = s.cnfl := by
  by_cases h1 : v < s.lb x
  · simp [SolverR.set_ub, h1]
  · simp only [SolverR.set_ub, if_neg h1]
    split <;> rfl

/-- `retract` never touches the stored conflict. -/
theorem retractS_cnfl (s : SolverR) (cid : Reason) (c : Constraint) :
    (SolverR.retractS s cid c).1.cnfl = s.cnfl := rfl

/-- The tableau scan of `check()` tests a predicate that depends only on
the entry's key, so the returned entry is also the first entry with that
key: `find?` success gives `lookup`. -/
theorem checkR_find_lookup (s : SolverR) (m : KMap Lin) (xi : Var) (l : Lin)
    (h : m.find? (fun p => decide (s.val p.1 < s.lb p.1) || decide (s.ub p.1 < s.val p.1)) =
      some (xi, l)) :
    KMap.lookup m xi = some l := by
  induction m with
  | nil => simp at h
  | cons e rest ih =>
    obtain ⟨y, b⟩ := e
    rw [List.find?] at h
    dsimp only at h
    by_cases hq : (decide (s.val y < s.lb y) || decide (s.ub y < s.val y)) = true
    · rw [hq] at h
      simp only [Option.some.injEq, Prod.mk.injEq] at h
      rw [KMap.lookup, if_pos h.1.symm, h.2]
    · have hq' : (decide (s.val y < s.lb y) || decide (s.ub y < s.val y)) = false := by
        revert hq
        cases decide (s.val y < s.lb y) || decide (s.ub y < s.val y) <;> simp
      rw [hq'] at h
      simp only at h
      have hmem := List.find?_some h
      have hxiq : (decide (s.val xi < s.lb xi) || decide (s.ub xi < s.val xi)) = true := by
        simpa using hmem
      have hne : xi ≠ y := fun he => hq (he ▸ hxiq)
      rw [KMap.lookup, if_neg hne]
      exact ih h

/-- C1 (amended): when `check()` reports infeasibility, the stored conflict
is exactly the reason set extracted from the blocking bounds of the stuck
row (empty reason sets — anonymous bounds — contribute nothing, so it can
be empty, see the counterexample), and no operation other than `check`
modifies the stored conflict, so `get_conflict()` keeps returning it
unchanged. -/
theorem C1_conflict_characterisation (n : Nat) (s s' : SolverR)
    (h : SolverR.checkFuel n s = some (false, s')) :
    (∃ xi l, KMap.lookup s'.tableau xi = some l ∧
      ((s'.val xi < s'.lb xi ∧
          SolverR.get_conflict s' = SolverR.explain_lower s' xi l) ∨
        (s'.ub xi < s'.val xi ∧
          SolverR.get_conflict s' = SolverR.explain_upper s' xi l))) ∧
      (∀ x v r, SolverR.get_conflict (SolverR.set_lb s' x v r).2 = SolverR.get_conflict s') ∧
      (∀ x v r, SolverR.get_conflict (SolverR.set_ub s' x v r).2 = SolverR.get_conflict s') ∧
      (∀ cid c, SolverR.get_conflict (SolverR.retractS s' cid c).1 = SolverR.get_conflict s') := by
  induction n generalizing s with
  | zero => exact absurd h (by simp [SolverR.checkFuel])
  | succ n ih =>
    rw [SolverR.checkFuel] at h
    split at h
    · simp at h
    · rename_i xi l hfind
      split at h
      · rename_i hviol
        split at h
        · exact ih _ h
        · simp only [Option.some.injEq, Prod.mk.injEq, true_and] at h
          subst h
          refine ⟨⟨xi, l, ?_, Or.inl ⟨hviol, rfl⟩⟩,
            fun x v r => set_lbR_cnfl _ x v r,
            fun x v r => set_ubR_cnfl _ x v r,
            fun cid c => retractS_cnfl _ cid c⟩
          exact checkR_find_lookup s s.tableau xi l hfind
      · split at h
        · rename_i hviol
          split at h
          · exact ih _ h
          · simp only [Option.some.injEq, Prod.mk.injEq, true_and] at h
            subst h
            refine ⟨⟨xi, l, ?_, Or.inr ⟨hviol, rfl⟩⟩,
              fun x v r => set_lbR_cnfl _ x v r,
              fun x v r => set_ubR_cnfl _ x v r,
              fun cid c => retractS_cnfl _ cid c⟩
            exact checkR_find_lookup s s.tableau xi l hfind
        · exact ih _ h

/-- A reason-aware state that fails immediately with only anonymous
bounds: `x1` basic with row `x1 = x0`, `lb(x1) = 1` installed with an empty
reason set, `ub(x0) = 0` installed with an empty reason set. -/
def anonState : SolverR :=
  ⟨[⟨IRat.zero, [], [(IRat.mk' 0 0, [])]⟩,
    ⟨IRat.zero, [(IRat.mk' 1 0, [])], []⟩],
   [(1, ⟨[(0, 1)], 0⟩)],
   [[1], []],
   []⟩

/-- C1 counterexample: on `anonState`, `check()` returns `false` yet the
conflict set subsequently returned by `get_conflict()` is empty — all the
blocking bounds are anonymous and contribute no reason, refuting the
claim's unconditional non-emptiness. -/
theorem C1_counterexample :
    (SolverR.checkFuel 3 anonState).map Prod.fst = some false ∧
      (SolverR.checkFuel 3 anonState).map (fun p => SolverR.get_conflict p.2) = some [] := by
  constructor <;> with_unfolding_all decide

/-- The same stuck state with reason-tagged bounds: reason 9 supports
`lb(x1) = 1` and reason 7 supports `ub(x0) = 0`. -/
def reasonedState : SolverR :=
  ⟨[⟨IRat.zero, [], [(IRat.mk' 0 0, [7])]⟩,
    ⟨IRat.zero, [(IRat.mk' 1 0, [9])], []⟩],
   [(1, ⟨[(0, 1)], 0⟩)],
   [[1], []],
   []⟩

/-- The state in which the failing run on `reasonedState` ends: the
conflict `[9, 7]` is recorded. -/
def reasonedAfter : SolverR :=
  ⟨[⟨IRat.zero, [], [(IRat.mk' 0 0, [7])]⟩,
    ⟨IRat.zero, [(IRat.mk' 1 0, [9])], []⟩],
   [(1, ⟨[(0, 1)], 0⟩)],
   [[1], []],
   [9, 7]⟩

/-- Witness for the amended C1 at a concrete input: the failing run on
`reasonedState` stores the non-empty conflict extracted from the two
reason-tagged blocking bounds, and the other operations leave it alone. -/
theorem C1_witness :
    SolverR.checkFuel 3 reasonedState = some (false, reasonedAfter) ∧
      ((∃ xi l, KMap.lookup reasonedAfter.tableau xi = some l ∧
        ((reasonedAfter.val xi < reasonedAfter.lb xi ∧
            SolverR.get_conflict reasonedAfter = SolverR.explain_lower reasonedAfter xi l) ∨
          (reasonedAfter.ub xi < reasonedAfter.val xi ∧
            SolverR.get_conflict reasonedAfter = SolverR.explain_upper reasonedAfter xi l))) ∧
        (∀ x v r, SolverR.get_conflict (SolverR.set_lb reasonedAfter x v r).2 =
          SolverR.get_conflict reasonedAfter) ∧
        (∀ x v r, SolverR.get_conflict (SolverR.set_ub reasonedAfter x v r).2 =
          SolverR.get_conflict reasonedAfter) ∧
        (∀ cid c, SolverR.get_conflict (SolverR.retractS reasonedAfter cid c).1 =
          SolverR.get_conflict reasonedAfter)) :=
  ⟨by with_unfolding_all decide,
   C1_conflict_characterisation 3 reasonedState reasonedAfter (by with_unfolding_all decide)⟩

end LinSpire
